import Mathlib

/-!
Verification of the Web Image Collector pipeline (src/main.py).

The file embeds the scan / download / selection / save pipeline of the
application as executable Lean definitions and proves the specified
properties about them.  External effects (HTTP fetches, image decoding,
the filesystem) are passed in explicitly as oracle functions, and the
user-facing dialogs are modelled as a list of emitted messages.
-/

/-- A user-facing dialog message (`messagebox.showwarning` / `showerror` /
`showinfo` in the source). -/
inductive Msg where
  | warning (text : String)
  | error (text : String)
  | info (text : String)
deriving DecidableEq, Repr

/-- True for `error` messages only. -/
def Msg.isErr : Msg → Bool
  | .error _ => true
  | _ => false

/-- Whitespace characters stripped by Python's `str.strip()` (ASCII subset:
space, tab, newline, carriage return, vertical tab, form feed). -/
def isPySpace (c : Char) : Bool :=
  c == ' ' || c == '\t' || c == '\n' || c == '\r' || c == Char.ofNat 11 || c == Char.ofNat 12

/-- Model of Python `str.strip()`: remove leading and trailing whitespace. -/
def pyStrip (s : String) : String :=
  ⟨((s.data.dropWhile isPySpace).reverse.dropWhile isPySpace).reverse⟩

/-- Model of Python `str.startswith(p)`. -/
def strStartsWith (s p : String) : Bool :=
  p.data.isPrefixOf s.data

/-- Digit characters of a natural number, most significant first, computed
with explicit fuel so that the definition is structural (the fuel `n + 1`
always suffices, see `natToDecCore_val`).  Models Python's decimal
formatting of a non-negative integer (as in `f-strings` and `str`). -/
def natToDecCore : Nat → Nat → List Char
  | 0, _ => []
  | fuel + 1, n =>
    if n < 10 then [Char.ofNat (48 + n)]
    else natToDecCore fuel (n / 10) ++ [Char.ofNat (48 + n % 10)]

/-- Decimal rendering of a natural number (model of Python `str(i)` for
non-negative `i`). -/
def natToDec (n : Nat) : String :=
  ⟨natToDecCore (n + 1) n⟩

/-- Numeric value of a digit string; left inverse of `natToDecCore`. -/
def decVal (l : List Char) : Nat :=
  l.foldl (fun a c => 10 * a + (c.toNat - 48)) 0

/-- Index (from the front) of the last `'.'` of a character list, if any. -/
def lastDotIdx (cs : List Char) : Option Nat :=
  match cs.reverse.findIdx? (fun c => c == '.') with
  | none => none
  | some j => some (cs.length - 1 - j)

/-- Model of `os.path.splitext` restricted to plain file names (no path
separators, which is how the source uses it): split at the last dot,
except that a name whose characters before that dot are all dots (e.g.
`".jpg"`) is not split. -/
def splitext (p : String) : String × String :=
  match lastDotIdx p.data with
  | none => (p, "")
  | some i =>
    if (p.data.take i).all (fun c => c == '.') then (p, "")
    else (⟨p.data.take i⟩, ⟨p.data.drop i⟩)

/-- The candidate file name `f"{base}_{i}{ext}"` tried by the collision
loop in `_unique_filename`. -/
def mkCand (base ext : String) (i : Nat) : String :=
  base ++ "_" ++ natToDec i ++ ext

/-- The `k`-th candidate tried by `_unique_filename` for a suggestion
`filename`: the suggestion itself, then `base_1`, `base_2`, …. -/
def candAt (base ext filename : String) : Nat → String
  | 0 => filename
  | k + 1 => mkCand base ext (k + 1)

/-- The candidate examined `k` steps after loop state `(cand, i)`. -/
def stepCand (base ext : String) : String → Nat → Nat → String
  | cand, _, 0 => cand
  | _, i, k + 1 => stepCand base ext (mkCand base ext i) (i + 1) k

/-- The `while candidate in existing_files` loop of `_unique_filename`,
with explicit fuel (fuel `existing.length + 1` always suffices, see
`uniqueLoop_total`).  State: current candidate and next suffix `i`. -/
def uniqueLoop (base ext : String) (existing : List String) : String → Nat → Nat → Option String
  | _, _, 0 => none
  | cand, i, fuel + 1 =>
    if cand ∈ existing then uniqueLoop base ext existing (mkCand base ext i) (i + 1) fuel
    else some cand

/-- Model of `_unique_filename`: resolve `filename` against the claimed
set `existing_files` and claim the winning name (the Python code mutates
the set in place; here the updated set is returned).  The `none` branch of
the match is unreachable (`uniqueLoop_total`). -/
def unique_filename (filename : String) (existing_files : List String) : String × List String :=
  match uniqueLoop (splitext filename).1 (splitext filename).2 existing_files filename 1
      (existing_files.length + 1) with
  | some c => (c, c :: existing_files)
  | none => (filename, filename :: existing_files)

/-! Section: Model of the URL library functions used by the source
(`urllib.parse.urljoin`, `urllib.parse.urlparse`), restricted to the
hierarchical (http-like) URLs the application handles. -/

/-- Components of a split URL (`urllib.parse` 5-tuple; the rarely-used
`params` component is not modelled). -/
structure UrlParts where
  scheme : String
  netloc : String
  path : String
  query : String
  fragment : String
deriving DecidableEq, Repr

/-- Characters allowed in a URL scheme after the leading letter. -/
def isSchemeChar (c : Char) : Bool :=
  c.isAlphanum || c == '+' || c == '-' || c == '.'

/-- If `s` begins with a syntactically valid scheme followed by `':'`,
return the scheme (lower-cased, as `urllib.parse` does) and the rest. -/
def schemeSplit (s : String) : Option (String × String) :=
  let pre := s.data.takeWhile (fun c => !(c == ':'))
  if pre.length < s.data.length then
    match pre with
    | [] => none
    | c :: rest =>
      if c.isAlpha && rest.all isSchemeChar then
        some (⟨(c :: rest).map Char.toLower⟩, ⟨s.data.drop (pre.length + 1)⟩)
      else none
  else none

/-- Split `s` at the first occurrence of `c`: the part before it and the
part after it (`(s, "")` when `c` does not occur). -/
def splitOnceChar (s : String) (c : Char) : String × String :=
  let pre := s.data.takeWhile (fun x => !(x == c))
  (⟨pre⟩, ⟨s.data.drop (pre.length + 1)⟩)

/-- Model of `urllib.parse.urlparse(s, defScheme)` for hierarchical URLs:
extract scheme (falling back to `defScheme`), `//netloc`, fragment and
query, leaving the path. -/
def urlparse (s : String) (defScheme : String) : UrlParts :=
  let sr := match schemeSplit s with
    | some p => p
    | none => (defScheme, s)
  let nr := if strStartsWith sr.2 "//" then
      let r := sr.2.data.drop 2
      ((⟨r.takeWhile (fun c => !(c == '/' || c == '?' || c == '#'))⟩ : String),
       (⟨r.dropWhile (fun c => !(c == '/' || c == '?' || c == '#'))⟩ : String))
    else ("", sr.2)
  let fr := splitOnceChar nr.2 '#'
  let qr := splitOnceChar fr.1 '?'
  ⟨sr.1, nr.1, qr.1, qr.2, fr.2⟩

/-- Model of `urllib.parse.urlunsplit` (with empty `params`). -/
def urlunsplit (p : UrlParts) : String :=
  let url := p.path
  let url := if p.netloc ≠ "" || strStartsWith url "//" then
      (if url ≠ "" && !(strStartsWith url "/") then "//" ++ p.netloc ++ "/" ++ url
       else "//" ++ p.netloc ++ url)
    else url
  let url := if p.scheme ≠ "" then p.scheme ++ ":" ++ url else url
  let url := if p.query ≠ "" then url ++ "?" ++ p.query else url
  if p.fragment ≠ "" then url ++ "#" ++ p.fragment else url

/-- Model of Python `s.split(c)` (always returns at least one piece). -/
def splitCharCore : List Char → Char → List Char → List String
  | [], _, acc => [⟨acc.reverse⟩]
  | x :: xs, c, acc =>
    if x == c then ⟨acc.reverse⟩ :: splitCharCore xs c []
    else splitCharCore xs c (x :: acc)

/-- Split a string on a separator character, Python-style. -/
def splitChar (s : String) (c : Char) : List String :=
  splitCharCore s.data c []

/-- Join path segments with `'/'` (Python `'/'.join`). -/
def joinSlash : List String → String
  | [] => ""
  | [a] => a
  | a :: rest => a ++ "/" ++ joinSlash rest

/-- Drop empty strings except in last position (`urljoin`'s
`segments[1:-1] = filter(None, segments[1:-1])`, tail part). -/
def keepLastFilter : List String → List String
  | [] => []
  | [b] => [b]
  | b :: bs => if b == "" then keepLastFilter bs else b :: keepLastFilter bs

/-- Drop empty strings except in first and last position. -/
def keepFirstLastFilter : List String → List String
  | [] => []
  | a :: rest => a :: keepLastFilter rest

/-- RFC 3986 dot-segment resolution loop of `urljoin`: `'..'` pops the
accumulator, `'.'` is dropped, anything else is appended. -/
def resolveSegs (acc : List String) : List String → List String
  | [] => acc
  | s :: rest =>
    if s == ".." then resolveSegs acc.dropLast rest
    else if s == "." then resolveSegs acc rest
    else resolveSegs (acc ++ [s]) rest

/-- Schemes treated as relative-capable by `urllib.parse.urljoin`
(subset of `uses_relative` covering the hierarchical schemes). -/
def usesRelative (s : String) : Bool :=
  s == "" || s == "http" || s == "https" || s == "ftp" || s == "file" || s == "ws" || s == "wss"

/-- Schemes carrying a network location (subset of `uses_netloc`). -/
def usesNetloc (s : String) : Bool :=
  s == "" || s == "http" || s == "https" || s == "ftp" || s == "file" || s == "ws" || s == "wss"

/-- Model of `urllib.parse.urljoin(base, url)` for hierarchical URLs,
following the CPython implementation: same-scheme relative references are
resolved against the base (netloc inheritance, empty-path case, and
dot-segment removal); different schemes return `url` unchanged. -/
def urljoin (base url : String) : String :=
  if base = "" then url
  else if url = "" then base
  else
    let b := urlparse base ""
    let u := urlparse url b.scheme
    if !(u.scheme == b.scheme) || !(usesRelative u.scheme) then url
    else if usesNetloc u.scheme && u.netloc ≠ "" then
      urlunsplit ⟨u.scheme, u.netloc, u.path, u.query, u.fragment⟩
    else
      let netloc := b.netloc
      if u.path = "" then
        urlunsplit ⟨u.scheme, netloc, b.path, (if u.query = "" then b.query else u.query), u.fragment⟩
      else
        let baseParts := splitChar b.path '/'
        let baseParts := if !(baseParts.getLast? == some "") then baseParts.dropLast else baseParts
        let segments := if strStartsWith u.path "/" then splitChar u.path '/'
                        else keepFirstLastFilter (baseParts ++ splitChar u.path '/')
        let resolved := resolveSegs [] segments
        let resolved := if segments.getLast? == some "." || segments.getLast? == some ".." then
            resolved ++ [""] else resolved
        let rp := joinSlash resolved
        urlunsplit ⟨u.scheme, netloc, (if rp = "" then "/" else rp), u.query, u.fragment⟩

/-- Model of `os.path.basename` (POSIX): the part after the last `'/'`. -/
def basename (p : String) : String :=
  ⟨(p.data.reverse.takeWhile (fun c => !(c == '/'))).reverse⟩

/-- The filename-suggestion logic of `_download_and_add_image`: basename
of the URL path, `"image"` if empty, with `".jpg"` appended when the name
carries no dot. -/
def suggestFilename (image_url : String) : String :=
  let parsed := urlparse image_url ""
  let filename := basename parsed.path
  let filename := if filename = "" then "image" else filename
  if filename.data.contains '.' then filename else filename ++ ".jpg"

/-! Section: The application model: registry, scan, selection, save. -/

/-- One entry of `self.images` (the Registry): the dict
`{url, data, photo, selected_var, filename}`.  The Tk photo handle is the
display-only thumbnail and carries no observable data, so it is not
modelled; raw bytes are a list of byte values. -/
structure ImageItem where
  url : String
  data : List Nat
  selected : Bool
  filename : String
deriving DecidableEq, Repr

/-- Model of `_download_and_add_image`: the image GET is the `download`
oracle (`none` = network error / bad status), thumbnail creation is the
`decodeOk` oracle.  Returns the item to append, or `none` for a skip.
The created item's `selected` flag is `true` (`tk.BooleanVar(value=True)`). -/
def download_and_add_image (download : String → Option (List Nat))
    (decodeOk : List Nat → Bool) (image_url : String) : Option ImageItem :=
  match download image_url with
  | none => none
  | some data =>
    if decodeOk data then
      some { url := image_url, data := data, selected := true,
             filename := suggestFilename image_url }
    else none

/-- Model of `clear_images(silent)`: empties the registry; the non-silent
variant notifies the user. -/
def clear_images (images : List ImageItem) (silent : Bool) : List ImageItem × List Msg :=
  ([], if silent then [] else [Msg.info "Cleared all loaded images from program (RAM)."])

/-- Model of `select_all`: set every item's selected flag. -/
def select_all (images : List ImageItem) : List ImageItem :=
  images.map (fun it => { it with selected := true })

/-- Model of `unselect_all`: clear every item's selected flag. -/
def unselect_all (images : List ImageItem) : List ImageItem :=
  images.map (fun it => { it with selected := false })

/-- Outcome of a scan: the new registry, the dialogs shown, the URL the
page GET was issued with (`none` when no fetch happened), and the image
URLs for which a download was attempted, in order. -/
structure ScanResult where
  images : List ImageItem
  msgs : List Msg
  fetched : Option String
  attempted : List String
deriving DecidableEq, Repr

/-- The URL normalisation in `scan_images`: prepend `"http://"` unless the
URL starts with `"http://"` or `"https://"`. -/
def normUrl (url : String) : String :=
  if strStartsWith url "http://" || strStartsWith url "https://" then url
  else "http://" ++ url

/-- The per-tag loop of `scan_images`: skip tags with no / empty `src`,
resolve the rest against the page URL and attempt download+decode;
successes are appended in order and counted.  Returns
(new items, attempted URLs, found count). -/
def scanLoop (url : String) (download : String → Option (List Nat))
    (decodeOk : List Nat → Bool) : List (Option String) → List ImageItem × List String × Nat
  | [] => ([], [], 0)
  | t :: ts =>
    match t with
    | none => scanLoop url download decodeOk ts
    | some src =>
      if src = "" then scanLoop url download decodeOk ts
      else
        let img_url := urljoin url src
        let rest := scanLoop url download decodeOk ts
        match download_and_add_image download decodeOk img_url with
        | some item => (item :: rest.1, img_url :: rest.2.1, rest.2.2 + 1)
        | none => (rest.1, img_url :: rest.2.1, rest.2.2)

/-- Model of `scan_images`.  `st` is the registry before the scan,
`urlInput` the text of the URL entry; `pageFetch` models
`requests.get(url)` + `raise_for_status` for the page (error text or
HTML), `parse` models `BeautifulSoup(...).find_all("img")` + `get("src")`
(one entry per img tag), `download` / `decodeOk` as in
`download_and_add_image`. -/
def scan_images (st : List ImageItem) (urlInput : String)
    (pageFetch : String → Except String String)
    (parse : String → List (Option String))
    (download : String → Option (List Nat))
    (decodeOk : List Nat → Bool) : ScanResult :=
  let url := pyStrip urlInput
  if url = "" then
    ⟨st, [Msg.warning "Please input URL (copy from Chrome address bar)."], none, []⟩
  else
    let url := normUrl url
    let cleared := (clear_images st true).1
    match pageFetch url with
    | .error e =>
      ⟨cleared, [Msg.error ("Failed to load page:\n" ++ e)], some url, []⟩
    | .ok text =>
      let img_tags := parse text
      if img_tags = [] then
        ⟨cleared, [Msg.info "No <img> tags found on this page."], some url, []⟩
      else
        let r := scanLoop url download decodeOk img_tags
        ⟨cleared ++ r.1,
         [if r.2.2 = 0 then Msg.info "No images could be downloaded."
          else Msg.info ("Found and loaded " ++ natToDec r.2.2 ++ " images into RAM (cache).")],
         some url, r.2.1⟩

/-- The download candidate produced by one img tag during a scan: tags
without a `src`, or with an empty one, yield nothing; the rest resolve
against the page URL.  (Used to state theorems about `scanLoop`.) -/
def tagCandidate (url : String) : Option String → Option String
  | none => none
  | some src => if src = "" then none else some (urljoin url src)

/-! Section: A concrete model of `find_all("img")` + `get("src")` for simple
well-formed HTML fragments, used to run the end-to-end example. -/

/-- Attribute-region scanner: return the value of the first
double-quoted `src` attribute, if any (fuel-structural). -/
def findSrcCore : Nat → List Char → Option (List Char)
  | 0, _ => none
  | _, [] => none
  | fuel + 1, c :: cs =>
    if isPySpace c && ['s', 'r', 'c'].isPrefixOf cs then
      let rest := (cs.drop 3).dropWhile isPySpace
      match rest with
      | '=' :: r2 =>
        let r3 := r2.dropWhile isPySpace
        match r3 with
        | '"' :: r4 => some (r4.takeWhile (fun x => !(x == '"')))
        | _ => none
      | _ => findSrcCore fuel cs
    else findSrcCore fuel cs

/-- Tag scanner: the attribute region of each `<img …>` tag, in document
order (fuel-structural; fuel = length of the input suffices). -/
def imgTagsCore : Nat → List Char → List (List Char)
  | 0, _ => []
  | _, [] => []
  | fuel + 1, c :: cs =>
    if c == '<' && ['i', 'm', 'g'].isPrefixOf cs
        && !((cs.drop 3).headD '>').isAlphanum then
      let attrs := (cs.drop 3).takeWhile (fun x => !(x == '>'))
      attrs :: imgTagsCore fuel ((cs.drop 3).dropWhile (fun x => !(x == '>')))
    else imgTagsCore fuel cs

/-- Model of `BeautifulSoup(html).find_all("img")` with `get("src")`
applied to each tag, for simple well-formed HTML: one entry per img tag,
`none` when the tag has no `src` attribute. -/
def parseImgSrcs (html : String) : List (Option String) :=
  (imgTagsCore html.data.length html.data).map
    (fun attrs => (findSrcCore (attrs.length + 1) attrs).map (fun l => (⟨l⟩ : String)))

/-! Section: The save pipeline. -/

/-- Model of `os.path.join` for POSIX paths as used by `save_selected`. -/
def pathJoin (a b : String) : String :=
  if strStartsWith b "/" then b
  else if a = "" || a.data.getLast? == some '/' then a ++ b
  else a ++ "/" ++ b

/-- One `open(full_path, "wb").write(data)` attempt. -/
structure WriteAttempt where
  path : String
  bytes : List Nat
deriving DecidableEq, Repr

/-- Outcome of `save_selected`: dialogs, the write attempts in order, and
the reported count of successful saves. -/
structure SaveResult where
  msgs : List Msg
  attempted : List WriteAttempt
  savedCount : Nat
deriving DecidableEq, Repr

/-- The per-item loop of `save_selected`, threading the claimed-name set:
resolve a unique name, attempt the write (success decided by the
`writeOk` oracle), count successes.  Returns
(write attempts, success count, final claimed set). -/
def saveLoop (dir : String) (writeOk : String → Bool) :
    List ImageItem → List String → List WriteAttempt × Nat × List String
  | [], ex => ([], 0, ex)
  | it :: rest, ex =>
    let r := unique_filename it.filename ex
    let fullPath := pathJoin dir r.1
    let tail := saveLoop dir writeOk rest r.2
    (⟨fullPath, it.data⟩ :: tail.1,
     (if writeOk fullPath then 1 else 0) + tail.2.1,
     tail.2.2)

/-- Model of `save_selected`.  `savePathRaw` is the save-path entry text,
`isdir` models `os.path.isdir`, `listing` models `os.listdir(target_dir)`,
and `writeOk` tells whether a given write succeeds. -/
def save_selected (images : List ImageItem) (savePathRaw : String)
    (isdir : String → Bool) (listing : List String)
    (writeOk : String → Bool) : SaveResult :=
  if images = [] then ⟨[Msg.warning "No images loaded."], [], 0⟩
  else
    let target_dir := pyStrip savePathRaw
    if target_dir = "" || !(isdir target_dir) then
      ⟨[Msg.warning "Invalid save path. Please set a valid folder."], [], 0⟩
    else
      let selected_items := images.filter (fun it => it.selected)
      if selected_items = [] then ⟨[Msg.warning "No images selected."], [], 0⟩
      else
        let r := saveLoop target_dir writeOk selected_items listing
        ⟨[Msg.info ("Saved " ++ natToDec r.2.1 ++ " image(s) to:\n" ++ target_dir)],
         r.1, r.2.1⟩

/-- Modelled from the spec: "auto-prefixed with `http://` if no scheme
present".  A URL "has a scheme" when it starts with a letter followed by
letters, digits, `+`, `-` or `.` and then a `':'` (RFC 3986 scheme
syntax).  This is the spec's notion, stated for comparison with the
code's actual `startswith` test. -/
def hasScheme (s : String) : Bool :=
  match schemeSplit s with
  | some _ => true
  | none => false


/-! Section: Basic string lemmas. -/

/-- String append acts as list append on the character data. -/
theorem str_append_data (a b : String) : a ++ b = (⟨a.data ++ b.data⟩ : String) := by
  cases a; cases b; rfl

/-- Appending the empty string is the identity. -/
theorem str_append_empty (a : String) : a ++ "" = a := by
  cases a; simp [str_append_data]

/-! Section: Correctness of the decimal formatter. -/

/-- Digit characters decode back to their value. -/
theorem char_digit_toNat (n : Nat) (h : n < 10) : (Char.ofNat (48 + n)).toNat = 48 + n := by
  interval_cases n <;> decide

/-- `decVal` over an appended digit. -/
theorem decVal_append_digit (l : List Char) (c : Char) :
    decVal (l ++ [c]) = 10 * decVal l + (c.toNat - 48) := by
  simp [decVal, List.foldl_append]

/-- With enough fuel, `natToDecCore` renders exactly `n`. -/
theorem natToDecCore_val : ∀ fuel n, n < 10 ^ fuel → decVal (natToDecCore fuel n) = n := by
  intro fuel
  induction fuel with
  | zero =>
    intro n h
    have : n = 0 := by simpa using h
    subst this
    rfl
  | succ f ih =>
    intro n h
    by_cases h10 : n < 10
    · simp only [natToDecCore, if_pos h10]
      show decVal ([] ++ [Char.ofNat (48 + n)]) = n
      rw [decVal_append_digit, char_digit_toNat n h10]
      simp [decVal]
    · simp only [natToDecCore, if_neg h10]
      rw [decVal_append_digit, char_digit_toNat (n % 10) (Nat.mod_lt n (by omega))]
      have hdiv : n / 10 < 10 ^ f := by
        rw [Nat.div_lt_iff_lt_mul (by omega)]
        calc n < 10 ^ (f + 1) := h
        _ = 10 ^ f * 10 := by rw [Nat.pow_succ]
      rw [ih (n / 10) hdiv]
      omega

/-- `natToDecCore` never returns the empty digit list (with positive fuel). -/
theorem natToDecCore_ne_nil (f n : Nat) : natToDecCore (f + 1) n ≠ [] := by
  simp only [natToDecCore]
  split <;> simp

/-- Decimal rendering is injective. -/
theorem natToDec_inj {m n : Nat} (h : natToDec m = natToDec n) : m = n := by
  have hm : m < 10 ^ (m + 1) :=
    lt_of_lt_of_le (Nat.lt_pow_self (by norm_num) m)
      (Nat.pow_le_pow_right (by norm_num) (Nat.le_succ m))
  have hn : n < 10 ^ (n + 1) :=
    lt_of_lt_of_le (Nat.lt_pow_self (by norm_num) n)
      (Nat.pow_le_pow_right (by norm_num) (Nat.le_succ n))
  have hd : natToDecCore (m + 1) m = natToDecCore (n + 1) n := congrArg String.data h
  have := congrArg decVal hd
  rwa [natToDecCore_val _ _ hm, natToDecCore_val _ _ hn] at this

/-! Section: Properties of `splitext` and the candidate family. -/

/-- `splitext` splits the name into two parts that concatenate back. -/
theorem splitext_append (f : String) : (splitext f).1 ++ (splitext f).2 = f := by
  unfold splitext
  cases h : lastDotIdx f.data with
  | none => exact str_append_empty f
  | some i =>
    by_cases hall : (f.data.take i).all (fun c => c == '.')
    · simp only [if_pos hall]
      exact str_append_empty f
    · simp only [if_neg hall]
      rw [str_append_data]
      show (⟨f.data.take i ++ f.data.drop i⟩ : String) = f
      rw [List.take_append_drop]

/-- Character data of a generated candidate. -/
theorem mkCand_data (base ext : String) (i : Nat) :
    (mkCand base ext i).data = base.data ++ '_' :: ((natToDec i).data ++ ext.data) := by
  simp only [mkCand, str_append_data]
  simp [List.append_assoc]

/-- Candidates with distinct suffix indices are distinct strings. -/
theorem mkCand_inj {base ext : String} {i j : Nat} (h : mkCand base ext i = mkCand base ext j) :
    i = j := by
  have h2 := congrArg String.data h
  rw [mkCand_data, mkCand_data] at h2
  have h3 := List.append_cancel_left h2
  have h4 := (List.cons.injEq _ _ _ _).mp h3 |>.2
  have h5 := List.append_cancel_right h4
  exact natToDec_inj (congrArg String.mk h5)

/-- The suggestion itself differs from every suffixed candidate. -/
theorem mkCand_ne_cat {base ext f : String} (hf : base ++ ext = f) (i : Nat) :
    f ≠ mkCand base ext i := by
  intro he
  have hd : f.data = base.data ++ ext.data := by
    rw [← hf, str_append_data]
  have h2 := congrArg (fun l => l.length) (congrArg String.data he)
  simp only [hd, mkCand_data, List.length_append, List.length_cons] at h2
  have h3 : (natToDec i).data ≠ [] := natToDecCore_ne_nil i i
  have h4 : 0 < (natToDec i).data.length := List.length_pos.mpr h3
  omega

/-- Unfolding of `stepCand` at positive distance. -/
theorem stepCand_succ (base ext : String) :
    ∀ k (cand : String) (i : Nat), stepCand base ext cand i (k + 1) = mkCand base ext (i + k) := by
  intro k
  induction k with
  | zero => intro cand i; simp [stepCand]
  | succ k ih =>
    intro cand i
    show stepCand base ext (mkCand base ext i) (i + 1) (k + 1) = _
    rw [ih]
    congr 1
    omega

/-- The candidates examined from the initial state are exactly `candAt`. -/
theorem stepCand_eq_candAt (base ext f : String) (k : Nat) :
    stepCand base ext f 1 k = candAt base ext f k := by
  cases k with
  | zero => rfl
  | succ k =>
    rw [stepCand_succ, candAt]
    congr 1
    omega

/-! Section: Characterisation of the collision loop. -/

/-- If the loop returns a name, it is the first free candidate: every
earlier candidate was claimed and the result is unclaimed. -/
theorem uniqueLoop_some_spec (base ext : String) (e : List String) :
    ∀ fuel (cand : String) (i : Nat) (r : String),
      uniqueLoop base ext e cand i fuel = some r →
      ∃ k, k < fuel ∧ r = stepCand base ext cand i k ∧ r ∉ e ∧
        ∀ j, j < k → stepCand base ext cand i j ∈ e := by
  intro fuel
  induction fuel with
  | zero => intro cand i r h; simp [uniqueLoop] at h
  | succ f ih =>
    intro cand i r h
    by_cases hc : cand ∈ e
    · rw [uniqueLoop, if_pos hc] at h
      obtain ⟨k, hk, hr, hne, hall⟩ := ih (mkCand base ext i) (i + 1) r h
      refine ⟨k + 1, by omega, hr, hne, ?_⟩
      intro j hj
      cases j with
      | zero => exact hc
      | succ j => exact hall j (by omega)
    · rw [uniqueLoop, if_neg hc] at h
      refine ⟨0, by omega, ?_, ?_, ?_⟩
      · exact (Option.some.injEq _ _).mp h.symm
      · have : r = cand := ((Option.some.injEq _ _).mp h).symm
        rw [this]; exact hc
      · intro j hj; omega

/-- If the loop runs out of fuel, every candidate it examined was claimed. -/
theorem uniqueLoop_none_spec (base ext : String) (e : List String) :
    ∀ fuel (cand : String) (i : Nat),
      uniqueLoop base ext e cand i fuel = none →
      ∀ k, k < fuel → stepCand base ext cand i k ∈ e := by
  intro fuel
  induction fuel with
  | zero => intro cand i _ k hk; omega
  | succ f ih =>
    intro cand i h k hk
    by_cases hc : cand ∈ e
    · rw [uniqueLoop, if_pos hc] at h
      cases k with
      | zero => exact hc
      | succ k => exact ih (mkCand base ext i) (i + 1) h k (by omega)
    · rw [uniqueLoop, if_neg hc] at h
      exact absurd h (by simp)

/-- Pigeonhole: with fuel `|existing| + 1` the loop always finds a free
name — the `|existing| + 1` candidates it can examine are pairwise
distinct, so they cannot all be members of `existing`. -/
theorem uniqueLoop_total (base ext f : String) (e : List String) (hf : base ++ ext = f) :
    uniqueLoop base ext e f 1 (e.length + 1) ≠ none := by
  intro h
  have hall := uniqueLoop_none_spec base ext e (e.length + 1) f 1 h
  have hinj : Function.Injective (stepCand base ext f 1) := by
    intro a b hab
    match a, b with
    | 0, 0 => rfl
    | 0, b + 1 =>
      rw [stepCand, stepCand_succ] at hab
      exact absurd hab (mkCand_ne_cat hf _)
    | a + 1, 0 =>
      rw [stepCand, stepCand_succ] at hab
      exact absurd hab.symm (mkCand_ne_cat hf _)
    | a + 1, b + 1 =>
      rw [stepCand_succ, stepCand_succ] at hab
      have := mkCand_inj hab
      omega
  have hnd : ((List.range (e.length + 1)).map (stepCand base ext f 1)).Nodup :=
    List.Nodup.map hinj (List.nodup_range _)
  have hsub : ((List.range (e.length + 1)).map (stepCand base ext f 1)) ⊆ e := by
    intro x hx
    simp only [List.mem_map, List.mem_range] at hx
    obtain ⟨k, hk, rfl⟩ := hx
    exact hall k hk
  have hle := (List.subperm_of_subset hnd hsub).length_le
  simp only [List.length_map, List.length_range] at hle
  omega

/-- Full specification of `_unique_filename`: the returned name is the
first candidate — suggestion, then `base_1`, `base_2`, … — unclaimed in
`existing`, and the returned set is `existing` with exactly that name
claimed. -/
theorem unique_filename_spec (f : String) (e : List String) :
    ∃ k, (unique_filename f e).1 = candAt (splitext f).1 (splitext f).2 f k ∧
      (unique_filename f e).1 ∉ e ∧
      (∀ j, j < k → candAt (splitext f).1 (splitext f).2 f j ∈ e) ∧
      (unique_filename f e).2 = (unique_filename f e).1 :: e := by
  have htot := uniqueLoop_total (splitext f).1 (splitext f).2 f e (splitext_append f)
  unfold unique_filename
  cases hlp : uniqueLoop (splitext f).1 (splitext f).2 e f 1 (e.length + 1) with
  | none => exact absurd hlp htot
  | some c =>
    obtain ⟨k, _, hr, hne, hall⟩ := uniqueLoop_some_spec (splitext f).1 (splitext f).2 e _ f 1 c hlp
    refine ⟨k, ?_, hne, ?_, rfl⟩
    · rw [← stepCand_eq_candAt]; exact hr
    · intro j hj
      rw [← stepCand_eq_candAt]
      exact hall j hj

/-! Section: Structure of the scan loop. -/

/-- The download attempts of the scan loop: one per img tag with a
non-empty `src`, in document order, resolved against the page URL, with
no de-duplication — independent of the download / decode outcomes. -/
theorem scanLoop_attempted (url : String) (dl : String → Option (List Nat))
    (dec : List Nat → Bool) :
    ∀ tags, (scanLoop url dl dec tags).2.1 = tags.filterMap (tagCandidate url) := by
  intro tags
  induction tags with
  | nil => rfl
  | cons t ts ih =>
    cases t with
    | none => simpa [scanLoop, tagCandidate] using ih
    | some src =>
      by_cases h : src = ""
      · simpa [scanLoop, tagCandidate, h] using ih
      · simp only [scanLoop, if_neg h, tagCandidate, List.filterMap_cons]
        cases hd : download_and_add_image dl dec (urljoin url src) <;>
          simp [hd, ih, h]

/-- The items appended by the scan loop are exactly the successful
download+decode results over the attempted URLs, in order. -/
theorem scanLoop_images (url : String) (dl : String → Option (List Nat))
    (dec : List Nat → Bool) :
    ∀ tags, (scanLoop url dl dec tags).1 =
      ((scanLoop url dl dec tags).2.1).filterMap (download_and_add_image dl dec) := by
  intro tags
  induction tags with
  | nil => rfl
  | cons t ts ih =>
    cases t with
    | none => simpa [scanLoop] using ih
    | some src =>
      by_cases h : src = ""
      · simpa [scanLoop, h] using ih
      · simp only [scanLoop, if_neg h]
        cases hd : download_and_add_image dl dec (urljoin url src) <;>
          simp [hd, ih]

/-- Behaviour of `scan_images` when the page fetch succeeds: the attempted
downloads are one per non-empty-`src` tag (joined against the normalised
page URL), and the new registry consists of exactly the successful
download+decode results over those URLs, in order. -/
theorem scan_images_ok_spec (st : List ImageItem) (input : String)
    (pf : String → Except String String) (parse : String → List (Option String))
    (dl : String → Option (List Nat)) (dec : List Nat → Bool) (text : String)
    (h1 : pyStrip input ≠ "") (h2 : pf (normUrl (pyStrip input)) = Except.ok text) :
    (scan_images st input pf parse dl dec).attempted =
      (parse text).filterMap (tagCandidate (normUrl (pyStrip input))) ∧
    (scan_images st input pf parse dl dec).images =
      ((scan_images st input pf parse dl dec).attempted).filterMap
        (download_and_add_image dl dec) := by
  simp only [scan_images, h1, if_false, h2, clear_images]
  by_cases hp : parse text = []
  · simp [hp]
  · simp only [if_neg hp, List.nil_append]
    exact ⟨scanLoop_attempted _ dl dec _, scanLoop_images _ dl dec _⟩

/-- Behaviour of `scan_images` when the page fetch fails: error dialog,
empty registry, no download attempted. -/
theorem scan_images_error_spec (st : List ImageItem) (input : String)
    (pf : String → Except String String) (parse : String → List (Option String))
    (dl : String → Option (List Nat)) (dec : List Nat → Bool) (err : String)
    (h1 : pyStrip input ≠ "") (h2 : pf (normUrl (pyStrip input)) = Except.error err) :
    scan_images st input pf parse dl dec =
      ⟨[], [Msg.error ("Failed to load page:\n" ++ err)], some (normUrl (pyStrip input)), []⟩ := by
  simp only [scan_images, h1, if_false, h2, clear_images]

/-- The page GET of a non-blank scan is issued with the normalised URL,
whatever its outcome. -/
theorem scan_images_fetched (st : List ImageItem) (input : String)
    (pf : String → Except String String) (parse : String → List (Option String))
    (dl : String → Option (List Nat)) (dec : List Nat → Bool)
    (h1 : pyStrip input ≠ "") :
    (scan_images st input pf parse dl dec).fetched = some (normUrl (pyStrip input)) := by
  simp only [scan_images, h1, if_false]
  cases hpf : pf (normUrl (pyStrip input)) with
  | error e => rfl
  | ok text =>
    by_cases hp : parse text = []
    · simp [hp]
    · simp [hp]

/-! Section: Structure of the save loop. -/

/-- The save loop attempts one write per selected item. -/
theorem saveLoop_length (dir : String) (wok : String → Bool) :
    ∀ (items : List ImageItem) (ex : List String),
      (saveLoop dir wok items ex).1.length = items.length := by
  intro items
  induction items with
  | nil => intro ex; rfl
  | cons it rest ih =>
    intro ex
    simp [saveLoop, ih]

/-- The success count of the save loop is the number of successful write
attempts. -/
theorem saveLoop_count (dir : String) (wok : String → Bool) :
    ∀ (items : List ImageItem) (ex : List String),
      (saveLoop dir wok items ex).2.1 =
        ((saveLoop dir wok items ex).1.filter (fun w => wok w.path)).length := by
  intro items
  induction items with
  | nil => intro ex; rfl
  | cons it rest ih =>
    intro ex
    by_cases hw : wok (pathJoin dir (unique_filename it.filename ex).1)
    · simp [saveLoop, hw, ih]
      omega
    · simp [saveLoop, hw, ih]

/-! Section: The claims. -/

/-- Claim C1: Save-pipeline collision avoidance.  With directory listing
`{"a.jpg"}` and suggested name `"a.jpg"`, the resolved save name is
`"a_1.jpg"`; a second same-batch suggestion of `"a.jpg"`, resolved
against the updated claimed set, yields `"a_2.jpg"`.  In general the
resolved name is the first of `filename, base_1, base_2, …` (increasing
numeric order) unclaimed in the set, and the winning name is claimed —
added to the set — immediately, before the write. -/
theorem C1_collision_rule :
    ((unique_filename "a.jpg" ["a.jpg"]).1 = "a_1.jpg" ∧
      (unique_filename "a.jpg" (unique_filename "a.jpg" ["a.jpg"]).2).1 = "a_2.jpg") ∧
    (∀ (f : String) (e : List String), ∃ k,
      (unique_filename f e).1 = candAt (splitext f).1 (splitext f).2 f k ∧
      (unique_filename f e).1 ∉ e ∧
      (∀ j, j < k → candAt (splitext f).1 (splitext f).2 f j ∈ e) ∧
      (unique_filename f e).2 = (unique_filename f e).1 :: e) :=
  ⟨⟨by decide, by decide⟩, unique_filename_spec⟩

/-- Witness for C1 at the concrete collision instance. -/
theorem C1_collision_rule_witness :
    (unique_filename "a.jpg" ["a.jpg"]).1 = "a_1.jpg" :=
  C1_collision_rule.1.1

/-- Claim C10: For every finite claimed-name set and every suggestion, the
collision loop terminates (within `|existing| + 1` iterations), returns a
name not in the input set, and adds exactly that name to the set; the
numeric suffix counter restarts at 1 on every call — whenever the
suggestion collides but `base_1` is free, `base_1` is chosen, whatever
names earlier resolutions claimed. -/
theorem C10_loop_termination :
    ∀ (f : String) (e : List String),
      (∃ c, uniqueLoop (splitext f).1 (splitext f).2 e f 1 (e.length + 1) = some c) ∧
      (unique_filename f e).1 ∉ e ∧
      (unique_filename f e).2 = (unique_filename f e).1 :: e ∧
      (f ∈ e → mkCand (splitext f).1 (splitext f).2 1 ∉ e →
        (unique_filename f e).1 = mkCand (splitext f).1 (splitext f).2 1) := by
  intro f e
  obtain ⟨k, hk, hne, hall, hset⟩ := unique_filename_spec f e
  refine ⟨?_, hne, hset, ?_⟩
  · cases hlp : uniqueLoop (splitext f).1 (splitext f).2 e f 1 (e.length + 1) with
    | none => exact absurd hlp (uniqueLoop_total _ _ f e (splitext_append f))
    | some c => exact ⟨c, rfl⟩
  · intro hf h1
    cases k with
    | zero => rw [hk] at hne; exact absurd hf hne
    | succ k' =>
      cases k' with
      | zero => exact hk
      | succ k'' => exact absurd (hall 1 (by omega)) h1

/-- Witness for C10: the counter restarts at 1 and the loop terminates on
a concrete collision. -/
theorem C10_loop_termination_witness :
    (unique_filename "a.jpg" ["a.jpg"]).1 = mkCand (splitext "a.jpg").1 (splitext "a.jpg").2 1 :=
  (C10_loop_termination "a.jpg" ["a.jpg"]).2.2.2 (by decide) (by decide)

/-- Claim C2, counterexample: the claim says a scheme-carrying input is
fetched unchanged, but for the input `"ftp://x.test/"` — which has the
scheme `ftp` — the page GET is issued with `"http://ftp://x.test/"`: the
code tests `startswith("http://")`/`startswith("https://")`, not scheme
presence. -/
theorem C2_counterexample :
    hasScheme "ftp://x.test/" = true ∧
    (scan_images [] "ftp://x.test/" (fun _ => Except.error "connection refused")
        parseImgSrcs (fun _ => none) (fun _ => false)).fetched =
      some "http://ftp://x.test/" ∧
    ("http://ftp://x.test/" : String) ≠ "ftp://x.test/" :=
  ⟨by decide, by decide, by decide⟩

/-- Claim C2, amended: for every input whose stripped form is non-empty,
the page GET is issued with exactly the stripped input when it starts
with `"http://"` or `"https://"`, and with `"http://"` prepended to the
stripped input otherwise. -/
theorem C2_prefix_rule :
    ∀ (st : List ImageItem) (input : String) (pf : String → Except String String)
      (parse : String → List (Option String)) (dl : String → Option (List Nat))
      (dec : List Nat → Bool),
      pyStrip input ≠ "" →
      (scan_images st input pf parse dl dec).fetched =
        some (if strStartsWith (pyStrip input) "http://"
                 || strStartsWith (pyStrip input) "https://"
              then pyStrip input else "http://" ++ pyStrip input) := by
  intro st input pf parse dl dec h1
  rw [scan_images_fetched st input pf parse dl dec h1]
  rfl

/-- Witness for the amended C2 at a scheme-less input. -/
theorem C2_prefix_rule_witness :
    (scan_images [] "x.test" (fun _ => Except.error "down") parseImgSrcs
        (fun _ => none) (fun _ => false)).fetched = some "http://x.test" := by
  have h := C2_prefix_rule [] "x.test" (fun _ => Except.error "down") parseImgSrcs
      (fun _ => none) (fun _ => false) (by decide)
  rw [h]
  decide

/-- Claim C3: scanning `<img src="/a.png"><img src="b.png"><img>` from base
URL `http://x.test/dir/` attempts exactly two downloads, in discovery
order, at `http://x.test/a.png` and `http://x.test/dir/b.png`; the
src-less third tag is skipped silently.  In general every img tag with a
non-empty `src` yields exactly one candidate URL joined against the page
URL, in order and with no de-duplication. -/
theorem C3_extraction :
    (∀ (dl : String → Option (List Nat)) (dec : List Nat → Bool),
      (scan_images [] "http://x.test/dir/"
        (fun _ => Except.ok "<img src=\"/a.png\"><img src=\"b.png\"><img>")
        parseImgSrcs dl dec).attempted =
        ["http://x.test/a.png", "http://x.test/dir/b.png"]) ∧
    (∀ (st : List ImageItem) (input : String) (pf : String → Except String String)
       (parse : String → List (Option String)) (dl : String → Option (List Nat))
       (dec : List Nat → Bool) (text : String),
      pyStrip input ≠ "" → pf (normUrl (pyStrip input)) = Except.ok text →
      (scan_images st input pf parse dl dec).attempted =
        (parse text).filterMap (tagCandidate (normUrl (pyStrip input)))) := by
  constructor
  · intro dl dec
    have h := (scan_images_ok_spec [] "http://x.test/dir/"
        (fun _ => Except.ok "<img src=\"/a.png\"><img src=\"b.png\"><img>")
        parseImgSrcs dl dec "<img src=\"/a.png\"><img src=\"b.png\"><img>"
        (by decide) rfl).1
    rw [h]
    decide
  · intro st input pf parse dl dec text h1 h2
    exact (scan_images_ok_spec st input pf parse dl dec text h1 h2).1

/-- Witness for the general part of C3 on a page without images. -/
theorem C3_extraction_witness :
    (scan_images [] " http://x.test/dir/x.html " (fun _ => Except.ok "<p>no images</p>")
        parseImgSrcs (fun _ => none) (fun _ => false)).attempted =
      (parseImgSrcs "<p>no images</p>").filterMap
        (tagCandidate (normUrl (pyStrip " http://x.test/dir/x.html "))) :=
  C3_extraction.2 [] " http://x.test/dir/x.html " (fun _ => Except.ok "<p>no images</p>")
    parseImgSrcs (fun _ => none) (fun _ => false) "<p>no images</p>" (by decide) rfl

/-- Claim C4: an item exists to be appended exactly when both its download
and its decode succeed (no partially constructed item), and the registry
produced by a successful scan is the pointwise `filterMap` of the
download+decode step over the attempted URLs — so one image's failure
never aborts the scan or affects whether its siblings are fetched and
appended. -/
theorem C4_atomic_append :
    (∀ (dl : String → Option (List Nat)) (dec : List Nat → Bool) (u : String),
      (∃ it, download_and_add_image dl dec u = some it) ↔
        ∃ d, dl u = some d ∧ dec d = true) ∧
    (∀ (st : List ImageItem) (input : String) (pf : String → Except String String)
       (parse : String → List (Option String)) (dl : String → Option (List Nat))
       (dec : List Nat → Bool) (text : String),
      pyStrip input ≠ "" → pf (normUrl (pyStrip input)) = Except.ok text →
      (scan_images st input pf parse dl dec).images =
        ((scan_images st input pf parse dl dec).attempted).filterMap
          (download_and_add_image dl dec)) := by
  constructor
  · intro dl dec u
    unfold download_and_add_image
    cases hdl : dl u with
    | none => simp
    | some d =>
      by_cases hd : dec d = true <;> simp [hd]
  · intro st input pf parse dl dec text h1 h2
    exact (scan_images_ok_spec st input pf parse dl dec text h1 h2).2

/-- Witness for C4 on a two-image page where only one download succeeds. -/
theorem C4_atomic_append_witness :
    (scan_images [] "http://x.test/"
        (fun _ => Except.ok "<img src=\"p.png\"><img src=\"q.png\">") parseImgSrcs
        (fun u => if u = "http://x.test/p.png" then some [7] else none)
        (fun _ => true)).images =
      ((scan_images [] "http://x.test/"
        (fun _ => Except.ok "<img src=\"p.png\"><img src=\"q.png\">") parseImgSrcs
        (fun u => if u = "http://x.test/p.png" then some [7] else none)
        (fun _ => true)).attempted).filterMap
        (download_and_add_image
          (fun u => if u = "http://x.test/p.png" then some [7] else none)
          (fun _ => true)) :=
  C4_atomic_append.2 [] "http://x.test/"
    (fun _ => Except.ok "<img src=\"p.png\"><img src=\"q.png\">") parseImgSrcs
    (fun u => if u = "http://x.test/p.png" then some [7] else none)
    (fun _ => true) "<img src=\"p.png\"><img src=\"q.png\">" (by decide) rfl

/-- Claim C5: when the page GET fails, the scan aborts with an error dialog,
the registry is left empty (it was cleared at scan start), and no image
download is attempted. -/
theorem C5_page_fetch_failure :
    ∀ (st : List ImageItem) (input : String) (pf : String → Except String String)
      (parse : String → List (Option String)) (dl : String → Option (List Nat))
      (dec : List Nat → Bool) (err : String),
      pyStrip input ≠ "" → pf (normUrl (pyStrip input)) = Except.error err →
      (scan_images st input pf parse dl dec).images = [] ∧
      (scan_images st input pf parse dl dec).attempted = [] ∧
      (scan_images st input pf parse dl dec).msgs =
        [Msg.error ("Failed to load page:\n" ++ err)] := by
  intro st input pf parse dl dec err h1 h2
  rw [scan_images_error_spec st input pf parse dl dec err h1 h2]
  exact ⟨rfl, rfl, rfl⟩

/-- Witness for C5 on a concrete timed-out page fetch. -/
theorem C5_page_fetch_failure_witness :
    (scan_images [⟨"u", [1], true, "f.jpg"⟩] "http://x.test/"
        (fun _ => Except.error "timeout") parseImgSrcs (fun _ => some [1])
        (fun _ => true)).images = [] ∧
    (scan_images [⟨"u", [1], true, "f.jpg"⟩] "http://x.test/"
        (fun _ => Except.error "timeout") parseImgSrcs (fun _ => some [1])
        (fun _ => true)).attempted = [] ∧
    (scan_images [⟨"u", [1], true, "f.jpg"⟩] "http://x.test/"
        (fun _ => Except.error "timeout") parseImgSrcs (fun _ => some [1])
        (fun _ => true)).msgs = [Msg.error ("Failed to load page:\n" ++ "timeout")] :=
  C5_page_fetch_failure [⟨"u", [1], true, "f.jpg"⟩] "http://x.test/"
    (fun _ => Except.error "timeout") parseImgSrcs (fun _ => some [1])
    (fun _ => true) "timeout" (by decide) rfl

/-- Claim C6: after `select_all` every item's selected flag is true; after
`unselect_all` every item's flag is false, regardless of prior state; and
a freshly created item's flag defaults to true. -/
theorem C6_selection_invariants :
    (∀ (st : List ImageItem) (it : ImageItem), it ∈ select_all st → it.selected = true) ∧
    (∀ (st : List ImageItem) (it : ImageItem), it ∈ unselect_all st → it.selected = false) ∧
    (∀ (dl : String → Option (List Nat)) (dec : List Nat → Bool) (u : String)
       (it : ImageItem), download_and_add_image dl dec u = some it → it.selected = true) := by
  refine ⟨?_, ?_, ?_⟩
  · intro st it hmem
    simp only [select_all, List.mem_map] at hmem
    obtain ⟨a, _, rfl⟩ := hmem
    rfl
  · intro st it hmem
    simp only [unselect_all, List.mem_map] at hmem
    obtain ⟨a, _, rfl⟩ := hmem
    rfl
  · intro dl dec u it h
    unfold download_and_add_image at h
    cases hdl : dl u with
    | none => rw [hdl] at h; exact absurd h (by simp)
    | some d =>
      rw [hdl] at h
      by_cases hd : dec d = true
      · simp only [hd, if_true, Option.some.injEq] at h
        rw [← h]
      · simp [hd] at h

/-- Witness for C6 on a one-item registry whose flag was false. -/
theorem C6_selection_invariants_witness :
    ({ url := "u", data := [], selected := true, filename := "f.jpg" } : ImageItem).selected
      = true :=
  C6_selection_invariants.1 [{ url := "u", data := [], selected := false, filename := "f.jpg" }]
    { url := "u", data := [], selected := true, filename := "f.jpg" } (by decide)

/-- Claim C7: Clear is idempotent — clearing twice in a row leaves the
registry empty, and clearing (also an already-empty registry) never emits
an error message. -/
theorem C7_clear_idempotent :
    ∀ (st : List ImageItem) (b b' : Bool),
      (clear_images (clear_images st b).1 b').1 = [] ∧
      (clear_images st b).1 = [] ∧
      (∀ m, m ∈ (clear_images (clear_images st b).1 b').2 → Msg.isErr m = false) := by
  intro st b b'
  refine ⟨rfl, rfl, ?_⟩
  intro m hm
  cases b' with
  | false =>
    have he : (clear_images (clear_images st b).1 false).2 =
        [Msg.info "Cleared all loaded images from program (RAM)."] := rfl
    rw [he] at hm
    simp only [List.mem_singleton] at hm
    subst hm
    rfl
  | true => simp [clear_images] at hm

/-- Behaviour of `save_selected` on the success path: one write attempt
per selected item, threaded through the claimed-name set. -/
theorem save_selected_run (imgs : List ImageItem) (d : String) (isd : String → Bool)
    (ls : List String) (wok : String → Bool) (h0 : imgs ≠ []) (h1 : pyStrip d ≠ "")
    (h2 : isd (pyStrip d) = true) (h3 : imgs.filter (fun it => it.selected) ≠ []) :
    save_selected imgs d isd ls wok =
      ⟨[Msg.info ("Saved " ++
          natToDec (saveLoop (pyStrip d) wok (imgs.filter (fun it => it.selected)) ls).2.1 ++
          " image(s) to:\n" ++ pyStrip d)],
       (saveLoop (pyStrip d) wok (imgs.filter (fun it => it.selected)) ls).1,
       (saveLoop (pyStrip d) wok (imgs.filter (fun it => it.selected)) ls).2.1⟩ := by
  simp only [save_selected, h0, if_false, h1, h2, h3, Bool.not_true,
    Bool.or_false, decide_eq_true_eq]

/-- Claim C8: saving with an empty registry, an invalid target directory,
or no selected item reports a warning and performs no write; otherwise
one write is attempted per selected item — a failing write is skipped
without aborting the rest — and the reported count equals the number of
successful writes. -/
theorem C8_save_guards_and_count :
    (∀ (d : String) (isd : String → Bool) (ls : List String) (wok : String → Bool),
      save_selected [] d isd ls wok = ⟨[Msg.warning "No images loaded."], [], 0⟩) ∧
    (∀ (imgs : List ImageItem) (d : String) (isd : String → Bool) (ls : List String)
       (wok : String → Bool), imgs ≠ [] →
      (pyStrip d = "" ∨ isd (pyStrip d) = false) →
      save_selected imgs d isd ls wok =
        ⟨[Msg.warning "Invalid save path. Please set a valid folder."], [], 0⟩) ∧
    (∀ (imgs : List ImageItem) (d : String) (isd : String → Bool) (ls : List String)
       (wok : String → Bool), imgs ≠ [] → pyStrip d ≠ "" → isd (pyStrip d) = true →
      imgs.filter (fun it => it.selected) = [] →
      save_selected imgs d isd ls wok = ⟨[Msg.warning "No images selected."], [], 0⟩) ∧
    (∀ (imgs : List ImageItem) (d : String) (isd : String → Bool) (ls : List String)
       (wok : String → Bool), imgs ≠ [] → pyStrip d ≠ "" → isd (pyStrip d) = true →
      imgs.filter (fun it => it.selected) ≠ [] →
      (save_selected imgs d isd ls wok).attempted.length =
        (imgs.filter (fun it => it.selected)).length ∧
      (save_selected imgs d isd ls wok).savedCount =
        ((save_selected imgs d isd ls wok).attempted.filter (fun w => wok w.path)).length ∧
      (save_selected imgs d isd ls wok).msgs =
        [Msg.info ("Saved " ++ natToDec (save_selected imgs d isd ls wok).savedCount ++
          " image(s) to:\n" ++ pyStrip d)]) := by
  refine ⟨?_, ?_, ?_, ?_⟩
  · intro d isd ls wok
    rfl
  · intro imgs d isd ls wok h0 h2
    rcases h2 with h2 | h2 <;> simp [save_selected, h0, h2]
  · intro imgs d isd ls wok h0 h1 h2 h3
    simp [save_selected, h0, h1, h2, h3]
  · intro imgs d isd ls wok h0 h1 h2 h3
    rw [save_selected_run imgs d isd ls wok h0 h1 h2 h3]
    exact ⟨saveLoop_length _ wok _ ls, saveLoop_count _ wok _ ls, rfl⟩

/-- Witness for C8 on a one-item registry saved into a directory already
containing a colliding name. -/
theorem C8_save_guards_and_count_witness :
    (save_selected [⟨"u", [7], true, "a.jpg"⟩] "/tmp/out" (fun _ => true) ["a.jpg"]
        (fun _ => true)).attempted.length =
      (([⟨"u", [7], true, "a.jpg"⟩] : List ImageItem).filter (fun it => it.selected)).length :=
  (C8_save_guards_and_count.2.2.2 [⟨"u", [7], true, "a.jpg"⟩] "/tmp/out" (fun _ => true)
    ["a.jpg"] (fun _ => true) (by decide) (by decide) rfl (by decide)).1

/-- Claim C9: a scan invoked with an empty or whitespace-only URL warns
before the pre-scan clear ever happens: the registry — items, order and
selection flags — is returned unchanged, nothing is fetched and no
download is attempted. -/
theorem C9_blank_url_noop :
    ∀ (st : List ImageItem) (input : String) (pf : String → Except String String)
      (parse : String → List (Option String)) (dl : String → Option (List Nat))
      (dec : List Nat → Bool),
      pyStrip input = "" →
      scan_images st input pf parse dl dec =
        ⟨st, [Msg.warning "Please input URL (copy from Chrome address bar)."], none, []⟩ := by
  intro st input pf parse dl dec h
  simp [scan_images, h]

/-- Witness for C9 on a whitespace-only input over a non-empty registry. -/
theorem C9_blank_url_noop_witness :
    scan_images [⟨"u", [9], false, "f.jpg"⟩] " \t " (fun _ => Except.error "x") parseImgSrcs
        (fun _ => none) (fun _ => false) =
      ⟨[⟨"u", [9], false, "f.jpg"⟩],
       [Msg.warning "Please input URL (copy from Chrome address bar)."], none, []⟩ :=
  C9_blank_url_noop [⟨"u", [9], false, "f.jpg"⟩] " \t " (fun _ => Except.error "x")
    parseImgSrcs (fun _ => none) (fun _ => false) (by decide)

/-- Witness for C7: the message emitted by a user-invoked clear of an
already-cleared registry is not an error. -/
theorem C7_clear_idempotent_witness :
    Msg.isErr (Msg.info "Cleared all loaded images from program (RAM).") = false :=
  (C7_clear_idempotent [] true false).2.2
    (Msg.info "Cleared all loaded images from program (RAM).") (by decide)
